import Mathlib

/-!
Verification of the typed-scent declarations (`src/scent.d.ts`), the type
surface of the Scent entity-component-system runtime.  The repository ships
only the declaration file, so the executable semantics below are a shallow
embedding reconstructed from the declaration file's doc comments and, where
those are silent, from the specification (each such definition says so in
its doc comment).  Component types are identified by their `typeIdentity`
number (`TypeId`), component instances by an instance identity number;
entities referenced by a `Node` are identified by an entity id.
-/

namespace Scent

/-- A component instance: its type identity (`typeIdentity` in the
declarations) and an instance identity distinguishing it from other
instances of the same type. -/
structure BaseComponent where
  tid : Nat
  cid : Nat
deriving DecidableEq

/-- Modelled from the spec: a slot held by an entity, pairing the component
instance with the disposed mark set by `Entity.remove` (the declarations
describe removal as "removed component is marked for disposal"). -/
structure CompSlot where
  comp : BaseComponent
  disposed : Bool
deriving DecidableEq

/-- Modelled from the spec: an entity is a mapping from TypeId to at most
one component slot, plus the `changed` stamp the declarations expose as
"timestamp of the latest change in entity"; the stamp is modelled as a
logical counter that strictly increases on every structural mutation. -/
structure Entity where
  slots : List CompSlot
  changed : Nat
deriving DecidableEq

/-- The slot currently stored for a TypeId, disposed or not. -/
def Entity.lookup (e : Entity) (t : Nat) : Option CompSlot :=
  e.slots.find? (fun s => s.comp.tid == t)

/-- The `has(component, allowDisposed)` check: presence check; a disposed slot counts
only when `allowDisposed` is true. -/
def Entity.has (e : Entity) (t : Nat) (allowDisposed : Bool) : Bool :=
  match e.lookup t with
  | some s => allowDisposed || !s.disposed
  | none => false

/-- The `get(component, allowDisposed)` accessor: "Retrieves component instance by
specified type. Returns null if no component of such type is present.
Passing true in the second argument will consider currently disposed
elements." (`src/scent.d.ts` lines 127-132); `null` is `none`. -/
def Entity.get (e : Entity) (t : Nat) (allowDisposed : Bool) : Option BaseComponent :=
  match e.lookup t with
  | some s => if allowDisposed || !s.disposed then some s.comp else none
  | none => none

/-- The `add(component)` operation: "Only a single instance of one component type can be
added. Trying to add component of same type preserves the previous one
while issuing a log message" (`src/scent.d.ts` lines 99-107).  The returned
Bool is true when that warning was issued; otherwise the slot is inserted
(displacing a disposed leftover of the same TypeId) and `changed` bumps. -/
def Entity.add (e : Entity) (c : BaseComponent) : Entity × Bool :=
  if e.has c.tid false then (e, true)
  else ({ slots := ⟨c, false⟩ :: e.slots.filter (fun s => !(s.comp.tid == c.tid)),
          changed := e.changed + 1 }, false)

/-- Modelled from the spec: disposal step of `remove` without the `changed`
bump, used to build `remove` and `replace`. -/
def Entity.disposeSlot (e : Entity) (t : Nat) : Entity :=
  match e.lookup t with
  | some s =>
      if s.disposed then e
      else { e with slots := ⟨s.comp, true⟩ :: e.slots.filter (fun s2 => !(s2.comp.tid == t)) }
  | none => e

/-- The `remove(component)` operation: marks the held component as disposed and bumps
`changed`; a no-op when no non-disposed component of the type is held. -/
def Entity.remove (e : Entity) (t : Nat) : Entity :=
  if e.has t false then { e.disposeSlot t with changed := e.changed + 1 }
  else e

/-- Modelled from the spec: insertion step of `add` without the warning
check or `changed` bump, used to build `replace`. -/
def Entity.insertSlot (e : Entity) (c : BaseComponent) : Entity :=
  { e with slots := ⟨c, false⟩ :: e.slots.filter (fun s => !(s.comp.tid == c.tid)) }

/-- The `replace(component)` operation: "Similar to add method, but disposes component of
same type before adding new one" (`src/scent.d.ts` lines 115-119); the spec
adds that `changed` bumps exactly once over the whole call. -/
def Entity.replace (e : Entity) (c : BaseComponent) : Entity :=
  { (e.disposeSlot c.tid).insertSlot c with changed := e.changed + 1 }

/-- Number of non-disposed components held. -/
def Entity.size (e : Entity) : Nat :=
  (e.slots.filter (fun s => !s.disposed)).length

/-- A notification a Node delivers to a listener. -/
inductive NodeEvent where
  | added (eid : Nat)
  | removed (eid : Nat)
deriving DecidableEq

/-- Whether a notification is an added-notification. -/
def NodeEvent.isAdded : NodeEvent → Bool
  | .added _ => true
  | .removed _ => false

/-- A Node (membership index): its canonical signature of TypeIds, the
linked member list head-to-tail (entity ids), the explicit `size` field the
declarations expose, the two pending notification queues, the registered
onAdded/onRemoved listeners (by listener id), and the log of notifications
already delivered to listeners.  Modelled from the spec where the
declaration comments are silent: the member list stands for the
doubly-linked head/tail list, and `delivered` records listener
invocations, which happen only in `finish` (`src/scent.d.ts` lines
234-249). -/
structure Node where
  signature : List Nat
  members : List Nat
  size : Nat
  addedQueue : List Nat
  removedQueue : List Nat
  onAddedL : List Nat
  onRemovedL : List Nat
  delivered : List (Nat × NodeEvent)
deriving DecidableEq

/-- The `entityFits(entity)` test: "Checks if entity fulfills component type
constraints defined for node type" (`src/scent.d.ts` lines 198-202): the
entity holds a non-disposed component for every TypeId in the signature. -/
def Node.entityFits (n : Node) (e : Entity) : Bool :=
  n.signature.all (fun t => e.has t false)

/-- The `addEntity(entity)` operation: "It rejects entities that are already on the list
or if required components are missing" (`src/scent.d.ts` lines 204-208);
otherwise appends at tail, increments size and enqueues an added
notification. -/
def Node.addEntity (n : Node) (eid : Nat) (e : Entity) : Node :=
  if n.members.contains eid || !(n.entityFits e) then n
  else { n with members := n.members ++ [eid],
                size := n.size + 1,
                addedQueue := n.addedQueue ++ [eid] }

/-- The `removeEntity(entity)` operation: "Removes entity from the node type if it no
longer fits in the node type constraints" (`src/scent.d.ts` lines
210-214): a linked entity is unlinked (the list repair of head/tail is the
list erase here), size decremented and a removed notification enqueued
only when it no longer fits; otherwise the call is a no-op. -/
def Node.removeEntity (n : Node) (eid : Nat) (e : Entity) : Node :=
  if n.members.contains eid && !(n.entityFits e) then
    { n with members := n.members.erase eid,
             size := n.size - 1,
             removedQueue := n.removedQueue ++ [eid] }
  else n

/-- The `updateEntity(entity)` operation: "An entity that is not part of the node type
will be checked against component type constraints and added if valid;
Otherwise, entity is removed from node type forcefully" (`src/scent.d.ts`
lines 216-221): delegates to `addEntity` when unlinked and to
`removeEntity` when linked. -/
def Node.updateEntity (n : Node) (eid : Nat) (e : Entity) : Node :=
  if n.members.contains eid then n.removeEntity eid e
  else n.addEntity eid e

/-- Modelled from the spec: the listener invocations draining the added
queue produces — for each queued entity in FIFO order, each onAdded
listener is invoked once. -/
def Node.addedCalls (n : Node) : List (Nat × NodeEvent) :=
  n.addedQueue.flatMap (fun eid => n.onAddedL.map (fun l => (l, NodeEvent.added eid)))

/-- Modelled from the spec: the listener invocations draining the removed
queue produces, FIFO per queued entity. -/
def Node.removedCalls (n : Node) : List (Nat × NodeEvent) :=
  n.removedQueue.flatMap (fun eid => n.onRemovedL.map (fun l => (l, NodeEvent.removed eid)))

/-- The `finish()` operation: "Used to invoke registered onAdded and onRemoved
callbacks" (`src/scent.d.ts` lines 246-249); modelled from the spec: the
added queue is drained first, then the removed queue, each FIFO, and both
queues are cleared. -/
def Node.finish (n : Node) : Node :=
  { n with addedQueue := [],
           removedQueue := [],
           delivered := n.delivered ++ n.addedCalls ++ n.removedCalls }

/-- Fresh Node for a signature, as created by the engine's Node cache. -/
def Node.fresh (sig : List Nat) : Node :=
  { signature := sig, members := [], size := 0, addedQueue := [],
    removedQueue := [], onAddedL := [], onRemovedL := [], delivered := [] }

/-- A queued action occurrence: action name, payload and the monotonic
timestamp recorded at trigger time. -/
structure ActionOcc where
  name : Nat
  payload : Nat
  time : Nat
deriving DecidableEq

/-- One step of the engine's synchronous tick, recorded in the engine's
execution trace: an action listener invocation, a system run, an onUpdate
callback run, a Node `finish()` (tagged with the Node's signature), or the
tick-counter advance. -/
inductive Phase where
  | actionCall (listener : Nat) (occ : ActionOcc)
  | systemRun (s : Nat)
  | updateCb (c : Nat)
  | nodeFinish (sig : List Nat)
  | tickAdvance (t : Nat)
deriving DecidableEq

/-- Modelled from the spec: the Engine.  The implementation behind the
declared `Engine` class is absent from the repository, so its state is
reconstructed from the spec's data model: the active entity set (by entity
id), the Node cache in creation order, the ordered system list and
onUpdate callback list (ids), per-name action listeners, the known action
types, the pending action queue, the tick counter, a monotonic clock for
action timestamps, and the trace of executed tick steps.  Systems,
callbacks and listeners are host code (external collaborators), so running
one is recorded in the trace rather than interpreted. -/
structure Engine where
  entities : List (Nat × Entity)
  nodes : List Node
  systems : List Nat
  updateCbs : List Nat
  actionListeners : List (Nat × Nat)
  actionTypes : List Nat
  actionQueue : List ActionOcc
  tick : Nat
  now : Nat
  trace : List Phase
deriving DecidableEq

/-- Canonicalization of a component-type list into a Signature: modelled
from the spec ("order-independent, deduplicated, sorted by TypeId"). -/
def canonSig (types : List Nat) : List Nat :=
  List.insertionSort (· ≤ ·) types.dedup

/-- Modelled from the spec: seeding a fresh Node's membership "by scanning
the current active-entity set once". -/
def seedNode (sig : List Nat) (entities : List (Nat × Entity)) : Node :=
  entities.foldl (fun n p => n.addEntity p.1 p.2) (Node.fresh sig)

/-- The `getNodeType(componentTypes)` operation: modelled from the spec — canonicalizes
the type list into a Signature, returns the cached Node for that Signature
or creates one (seeded from the active entity set) and appends it to the
cache in creation order. -/
def Engine.getNodeType (g : Engine) (types : List Nat) : Engine × Node :=
  match g.nodes.find? (fun n => n.signature == canonSig types) with
  | some n => (g, n)
  | none =>
      ({ g with nodes := g.nodes ++ [seedNode (canonSig types) g.entities] },
       seedNode (canonSig types) g.entities)

/-- The engine `addEntity(entity)` operation: modelled from the spec — inserts into the active
set, then calls `updateEntity` on every cached Node. -/
def Engine.addEntity (g : Engine) (eid : Nat) (e : Entity) : Engine :=
  { g with entities := g.entities ++ [(eid, e)],
           nodes := g.nodes.map (fun n => n.updateEntity eid e) }

/-- The `triggerAction(name, data, meta)` operation: modelled from the spec — resolves or
creates the named action type and enqueues a timestamped occurrence for
dispatch on the next `update()`; no listener runs now (the trace is not
touched). -/
def Engine.triggerAction (g : Engine) (nm payload : Nat) : Engine :=
  { g with actionTypes := if g.actionTypes.contains nm then g.actionTypes
                          else g.actionTypes ++ [nm],
           actionQueue := g.actionQueue ++ [⟨nm, payload, g.now⟩],
           now := g.now + 1 }

/-- The listener invocations dispatching the queued actions produces:
occurrences in global trigger order (FIFO across all names), each
delivered to the listeners registered for its name. -/
def Engine.dispatchCalls (g : Engine) : List Phase :=
  g.actionQueue.flatMap (fun occ =>
    (g.actionListeners.filter (fun l => l.1 == occ.name)).map
      (fun l => Phase.actionCall l.2 occ))

/-- Tick step 1, modelled from the spec: dispatch all queued actions in
strict trigger order, clearing the queue. -/
def Engine.dispatchActions (g : Engine) : Engine :=
  { g with actionQueue := [], trace := g.trace ++ g.dispatchCalls }

/-- Tick step 2, modelled from the spec: run each registered system in
registration order, then each onUpdate callback in registration order. -/
def Engine.runSystems (g : Engine) : Engine :=
  { g with trace := g.trace ++ g.systems.map Phase.systemRun
                            ++ g.updateCbs.map Phase.updateCb }

/-- Tick step 3, modelled from the spec: call `finish()` on every cached
Node, in Node-creation order. -/
def Engine.finishNodes (g : Engine) : Engine :=
  { g with nodes := g.nodes.map Node.finish,
           trace := g.trace ++ g.nodes.map (fun n => Phase.nodeFinish n.signature) }

/-- Tick step 4, modelled from the spec: advance the tick counter. -/
def Engine.advanceTick (g : Engine) : Engine :=
  { g with tick := g.tick + 1, trace := g.trace ++ [Phase.tickAdvance (g.tick + 1)] }

/-- The `update(...)` tick: "Updates the engine. Actions are processed, node types
are updated and onUpdate callbacks are called" (`src/scent.d.ts` lines
68-73); the tick algorithm, modelled from the spec as the synchronous
composition of the four steps. -/
def Engine.update (g : Engine) : Engine :=
  g.dispatchActions.runSystems.finishNodes.advanceTick

/-- Whether a tick step is an action listener invocation. -/
def isActionCall : Phase → Bool
  | Phase.actionCall _ _ => true
  | _ => false

/-- The action listener invocations contained in a trace, in order. -/
def actionCallsOf (tr : List Phase) : List Phase :=
  tr.filter isActionCall

/-- Concrete one-type Node with one linked member, used to probe
`removeEntity` on an entity that still fits. -/
def nodeC3 : Node :=
  { signature := [0], members := [5], size := 1, addedQueue := [],
    removedQueue := [], onAddedL := [7], onRemovedL := [7], delivered := [] }

/-- Concrete entity holding a non-disposed component of TypeId 0. -/
def entityC3 : Entity :=
  { slots := [⟨⟨0, 1⟩, false⟩], changed := 1 }

/-- Concrete empty engine used to exercise `getNodeType`. -/
def engineC7 : Engine :=
  { entities := [(4, entityC3)], nodes := [], systems := [], updateCbs := [],
    actionListeners := [], actionTypes := [], actionQueue := [],
    tick := 0, now := 0, trace := [] }

/- ------------------------------------------------------------------ -/
/- Helper lemmas                                                       -/
/- ------------------------------------------------------------------ -/

/-- A find? keyed on one TypeId is unaffected by filtering out a different
TypeId. -/
theorem find_tid_filter (l : List CompSlot) (t u : Nat) (h : ¬ t = u) :
    (l.filter (fun s => !(s.comp.tid == u))).find? (fun s => s.comp.tid == t)
      = l.find? (fun s => s.comp.tid == t) := by
  have hut : ((u == t) : Bool) = false := by
    simp
    intro he
    exact h he.symm
  induction l with
  | nil => rfl
  | cons a l ih =>
    by_cases hu : a.comp.tid = u
    · simp [List.filter_cons, List.find?_cons, hu, hut, ih]
    · by_cases hat : a.comp.tid = t
      · simp [List.filter_cons, List.find?_cons, hu, hat, h]
      · simp [List.filter_cons, List.find?_cons, hu, hat, ih]

/-- Effect of `add` on visible presence: the added TypeId becomes (or
stays) present, every other TypeId is untouched. -/
theorem add_has (e : Entity) (c : BaseComponent) (t : Nat) :
    ((e.add c).1).has t false = (t == c.tid || e.has t false) := by
  by_cases hc : e.has c.tid false = true
  · by_cases ht : t = c.tid
    · subst ht
      unfold Entity.add
      rw [if_pos hc]
      simp [hc]
    · unfold Entity.add
      rw [if_pos hc]
      simp [ht]
  · by_cases ht : t = c.tid
    · subst ht
      unfold Entity.add
      rw [if_neg hc]
      simp [Entity.has, Entity.lookup, List.find?_cons]
    · have hct : ((c.tid == t) : Bool) = false := by
        simp
        intro he
        exact ht he.symm
      have hbt : ((t == c.tid) : Bool) = false := by
        simp [ht]
      unfold Entity.add
      rw [if_neg hc]
      simp only [Entity.has, Entity.lookup, List.find?_cons, hbt, Bool.false_or]
      simp only [hct]
      rw [find_tid_filter e.slots t c.tid ht]

/-- A successful non-disposed `get` implies a successful `has`. -/
theorem get_some_has (e : Entity) (t : Nat) (c : BaseComponent)
    (h : e.get t false = some c) : e.has t false = true := by
  unfold Entity.get at h
  unfold Entity.has
  cases hl : e.lookup t with
  | none => rw [hl] at h; cases h
  | some s =>
    rw [hl] at h
    by_cases hd : s.disposed
    · simp [hd] at h
    · simp [hd]

/- ------------------------------------------------------------------ -/
/- Claim theorems                                                      -/
/- ------------------------------------------------------------------ -/

/-- C2: `updateEntity` is the reconciliation primitive — it behaves as
`addEntity` when the entity is not linked and fits the signature, as
`removeEntity` when the entity is linked and no longer fits, and is a
no-op in every other case. -/
theorem updateEntity_reconciles (n : Node) (eid : Nat) (e : Entity) :
    n.updateEntity eid e =
      if !(n.members.contains eid) && n.entityFits e then n.addEntity eid e
      else if n.members.contains eid && !(n.entityFits e) then n.removeEntity eid e
      else n := by
  unfold Node.updateEntity Node.addEntity Node.removeEntity
  cases hm : n.members.contains eid <;> cases hf : n.entityFits e <;> simp [hm, hf]

/-- C3 counterexample: a Node whose member entity still fits the
signature; `removeEntity` is a no-op — it does not unlink, does not
decrement `size` and enqueues nothing — refuting "unconditionally unlinks
… regardless of whether e still fits the signature". -/
theorem removeEntity_still_fitting_noop :
    nodeC3.members.contains 5 = true ∧
    nodeC3.entityFits entityC3 = true ∧
    nodeC3.removeEntity 5 entityC3 = nodeC3 ∧
    (nodeC3.removeEntity 5 entityC3).size = 1 ∧
    (nodeC3.removeEntity 5 entityC3).removedQueue = [] := by
  decide

/-- C3 amended: `removeEntity` is a no-op when the entity is not linked
and also when the entity is linked but still fits the signature; only when
the entity is linked and no longer fits does it unlink the entity
(repairing the member list), decrement `size` by one and enqueue a
"removed" notification. -/
theorem removeEntity_characterized (n : Node) (eid : Nat) (e : Entity) :
    n.removeEntity eid e =
      if n.members.contains eid && !(n.entityFits e) then
        { n with members := n.members.erase eid,
                 size := n.size - 1,
                 removedQueue := n.removedQueue ++ [eid] }
      else n := by
  unfold Node.removeEntity
  rfl

/-- C5: `finish` drains the added queue first — one invocation of each
onAdded listener per queued entity, FIFO — then the removed queue the same
way, then clears both queues; every added-notification it delivers comes
before every removed-notification, and membership is untouched. -/
theorem finish_drains_added_then_removed (n : Node) :
    (n.finish).addedQueue = [] ∧
    (n.finish).removedQueue = [] ∧
    (n.finish).delivered = n.delivered ++ n.addedCalls ++ n.removedCalls ∧
    n.addedCalls = n.addedQueue.flatMap
      (fun eid => n.onAddedL.map (fun l => (l, NodeEvent.added eid))) ∧
    n.removedCalls = n.removedQueue.flatMap
      (fun eid => n.onRemovedL.map (fun l => (l, NodeEvent.removed eid))) ∧
    n.addedCalls.all (fun p => p.2.isAdded) = true ∧
    n.removedCalls.all (fun p => !p.2.isAdded) = true ∧
    (n.finish).members = n.members ∧
    (n.finish).size = n.size := by
  refine ⟨rfl, rfl, rfl, rfl, rfl, ?_, ?_, rfl, rfl⟩
  · rw [List.all_eq_true]
    intro p hp
    simp only [Node.addedCalls, List.mem_flatMap, List.mem_map] at hp
    obtain ⟨eid, _, l, _, rfl⟩ := hp
    rfl
  · rw [List.all_eq_true]
    intro p hp
    simp only [Node.removedCalls, List.mem_flatMap, List.mem_map] at hp
    obtain ⟨eid, _, l, _, rfl⟩ := hp
    rfl

/-- C10: when no component of the requested type is visible under the
given `allowDisposed` flag, `get` returns null (`none`) — it neither
throws nor yields anything else. -/
theorem get_absent_returns_null (e : Entity) (t : Nat) (ad : Bool)
    (h : e.has t ad = false) : e.get t ad = none := by
  unfold Entity.has at h
  unfold Entity.get
  cases hl : e.lookup t with
  | none => rfl
  | some s =>
    rw [hl] at h
    have hv : (ad || !s.disposed) = false := h
    simp [hv]

/-- C10 witness: a concrete entity whose only slot of TypeId 0 is
disposed; without `allowDisposed` the component is invisible and `get`
returns `none`. -/
theorem get_absent_returns_null_witness :
    Entity.has ⟨[⟨⟨0, 7⟩, true⟩], 3⟩ 0 false = false ∧
    Entity.get ⟨[⟨⟨0, 7⟩, true⟩], 3⟩ 0 false = none :=
  ⟨by decide, get_absent_returns_null ⟨[⟨⟨0, 7⟩, true⟩], 3⟩ 0 false (by decide)⟩

/-- C6: adding a second component of an already-present TypeId does not
fail — the entity is unchanged (new component discarded, original
retained), the warning flag is reported, and `get` still returns the
original instance. -/
theorem add_duplicate_retains_original (e : Entity) (c orig : BaseComponent)
    (h : e.get c.tid false = some orig) :
    (e.add c).1 = e ∧ (e.add c).2 = true ∧ (e.add c).1.get c.tid false = some orig := by
  have hh : e.has c.tid false = true := get_some_has e c.tid orig h
  unfold Entity.add
  rw [if_pos hh]
  exact ⟨rfl, rfl, h⟩

/-- C6 witness: an entity holding component instance 1 of TypeId 0;
adding instance 2 of TypeId 0 is discarded with a warning and `get` still
returns instance 1. -/
theorem add_duplicate_retains_original_witness :
    Entity.get ⟨[⟨⟨0, 1⟩, false⟩], 1⟩ 0 false = some ⟨0, 1⟩ ∧
    ((Entity.add ⟨[⟨⟨0, 1⟩, false⟩], 1⟩ ⟨0, 2⟩).1 = ⟨[⟨⟨0, 1⟩, false⟩], 1⟩ ∧
     (Entity.add ⟨[⟨⟨0, 1⟩, false⟩], 1⟩ ⟨0, 2⟩).2 = true ∧
     (Entity.add ⟨[⟨⟨0, 1⟩, false⟩], 1⟩ ⟨0, 2⟩).1.get 0 false = some ⟨0, 1⟩) :=
  ⟨by decide, add_duplicate_retains_original ⟨[⟨⟨0, 1⟩, false⟩], 1⟩ ⟨0, 2⟩ ⟨0, 1⟩ (by decide)⟩

/-- Disposing a slot leaves the slots of every other TypeId untouched. -/
theorem dispose_filter (e : Entity) (t : Nat) :
    (e.disposeSlot t).slots.filter (fun s => !(s.comp.tid == t))
      = e.slots.filter (fun s => !(s.comp.tid == t)) := by
  unfold Entity.disposeSlot
  cases hl : e.lookup t with
  | none => rfl
  | some s =>
    by_cases hd : s.disposed
    · simp [hd]
    · have hl2 : e.slots.find? (fun s2 => s2.comp.tid == t) = some s := hl
      have hst := List.find?_some hl2
      simp only [] at hst
      simp [hd, List.filter_cons, hst, List.filter_filter]

/-- C9: `replace` disposes any existing component of the new component's
TypeId and then adds the new one: afterwards `get` (with or without
`allowDisposed`) returns the new instance, slots of every other TypeId are
untouched, and the `changed` stamp has increased exactly once over the
whole call. -/
theorem replace_single_changed_bump (e : Entity) (c : BaseComponent) :
    (e.replace c).get c.tid false = some c ∧
    (e.replace c).get c.tid true = some c ∧
    (e.replace c).changed = e.changed + 1 ∧
    (e.replace c).slots.filter (fun s => !(s.comp.tid == c.tid))
      = e.slots.filter (fun s => !(s.comp.tid == c.tid)) := by
  refine ⟨?_, ?_, rfl, ?_⟩
  · simp [Entity.replace, Entity.insertSlot, Entity.get, Entity.lookup, List.find?_cons]
  · simp [Entity.replace, Entity.insertSlot, Entity.get, Entity.lookup, List.find?_cons]
  · simp [Entity.replace, Entity.insertSlot, List.filter_cons, List.filter_filter,
      dispose_filter e c.tid]

/-- C4: one `update()` call runs the whole tick in the fixed order —
queued actions dispatched first (global FIFO), then systems in
registration order, then onUpdate callbacks, then `finish()` on every
cached Node in creation order, and finally the tick counter advances by
one; the action queue is cleared and nothing else of the engine state
moves. -/
theorem update_tick_order (g : Engine) :
    (g.update).trace = g.trace ++ g.dispatchCalls
        ++ g.systems.map Phase.systemRun ++ g.updateCbs.map Phase.updateCb
        ++ g.nodes.map (fun n => Phase.nodeFinish n.signature)
        ++ [Phase.tickAdvance (g.tick + 1)] ∧
    (g.update).tick = g.tick + 1 ∧
    (g.update).actionQueue = [] ∧
    (g.update).nodes = g.nodes.map Node.finish ∧
    (g.update).entities = g.entities ∧
    (g.update).systems = g.systems ∧
    (g.update).updateCbs = g.updateCbs := by
  unfold Engine.update Engine.dispatchActions Engine.runSystems Engine.finishNodes
    Engine.advanceTick
  refine ⟨?_, rfl, rfl, rfl, rfl, rfl, rfl⟩
  simp [List.append_assoc]

/-- C8: `triggerAction` only enqueues a timestamped occurrence — the trace
(hence every listener) is untouched and the tick does not move — and the
next `update()` emits exactly the queued occurrences' listener calls, in
global trigger order (FIFO across all action names). -/
theorem triggerAction_enqueues_deferred (g : Engine) (nm payload : Nat) :
    (g.triggerAction nm payload).trace = g.trace ∧
    (g.triggerAction nm payload).actionQueue = g.actionQueue ++ [⟨nm, payload, g.now⟩] ∧
    (g.triggerAction nm payload).tick = g.tick ∧
    (g.triggerAction nm payload).nodes = g.nodes ∧
    g.dispatchCalls = g.actionQueue.flatMap (fun occ =>
      (g.actionListeners.filter (fun l => l.1 == occ.name)).map
        (fun l => Phase.actionCall l.2 occ)) ∧
    actionCallsOf (g.update).trace = actionCallsOf g.trace ++ g.dispatchCalls := by
  refine ⟨rfl, rfl, rfl, rfl, rfl, ?_⟩
  have hd : g.dispatchCalls.filter isActionCall = g.dispatchCalls := by
    rw [List.filter_eq_self]
    intro a ha
    simp only [Engine.dispatchCalls, List.mem_flatMap, List.mem_map,
      List.mem_filter] at ha
    obtain ⟨occ, _, l, _, rfl⟩ := ha
    rfl
  have hs : (g.systems.map Phase.systemRun).filter isActionCall = [] := by
    rw [List.filter_eq_nil_iff]
    intro a ha
    obtain ⟨s, _, rfl⟩ := List.mem_map.mp ha
    simp [isActionCall]
  have hc : (g.updateCbs.map Phase.updateCb).filter isActionCall = [] := by
    rw [List.filter_eq_nil_iff]
    intro a ha
    obtain ⟨s, _, rfl⟩ := List.mem_map.mp ha
    simp [isActionCall]
  have hn : (g.nodes.map (fun n => Phase.nodeFinish n.signature)).filter isActionCall
      = [] := by
    rw [List.filter_eq_nil_iff]
    intro a ha
    obtain ⟨s, _, rfl⟩ := List.mem_map.mp ha
    simp [isActionCall]
  unfold Engine.update Engine.dispatchActions Engine.runSystems Engine.finishNodes
    Engine.advanceTick
  simp [actionCallsOf, List.filter_append, hd, hs, hc, hn, isActionCall]

/-- C1: after reconciling an entity through `updateEntity`, it is a member
of the Node exactly when it holds a non-disposed component for every
TypeId in the signature; the reconciliation delivers nothing to listeners
(only `finish` does), and the fit test — hence membership — does not
depend on the order in which two components were added. -/
theorem membership_law (n : Node) (eid : Nat) (e : Entity)
    (a b : BaseComponent) (e2 : Entity) (hnd : n.members.Nodup) :
    ((eid ∈ (n.updateEntity eid e).members) ↔ n.entityFits e = true) ∧
    ((n.updateEntity eid e).delivered = n.delivered) ∧
    ((n.updateEntity eid e).signature = n.signature) ∧
    (n.entityFits (((e2.add a).1.add b).1) = n.entityFits (((e2.add b).1.add a).1)) := by
  have hhas : ∀ t, (((e2.add a).1.add b).1).has t false
      = (((e2.add b).1.add a).1).has t false := by
    intro t
    rw [add_has, add_has, add_has, add_has]
    cases h1 : (t == b.tid) <;> cases h2 : (t == a.tid) <;> simp
  have hfits : n.entityFits (((e2.add a).1.add b).1)
      = n.entityFits (((e2.add b).1.add a).1) := by
    simp only [Node.entityFits]
    congr 1
    funext t
    exact hhas t
  by_cases hm : eid ∈ n.members
  · have hmc : n.members.contains eid = true := by simpa using hm
    cases hf : n.entityFits e
    · have her : eid ∉ n.members.erase eid := hnd.not_mem_erase
      refine ⟨?_, ?_, ?_, hfits⟩
      · simp [Node.updateEntity, Node.removeEntity, hmc, hf, hm, her]
      · simp [Node.updateEntity, Node.removeEntity, hmc, hf, hm]
      · simp [Node.updateEntity, Node.removeEntity, hmc, hf, hm]
    · refine ⟨?_, ?_, ?_, hfits⟩
      · simp [Node.updateEntity, Node.removeEntity, hmc, hf, hm]
      · simp [Node.updateEntity, Node.removeEntity, hmc, hf, hm]
      · simp [Node.updateEntity, Node.removeEntity, hmc, hf, hm]
  · have hmc : n.members.contains eid = false := by simpa using hm
    cases hf : n.entityFits e
    · refine ⟨?_, ?_, ?_, hfits⟩
      · simp [Node.updateEntity, Node.addEntity, hmc, hf, hm]
      · simp [Node.updateEntity, Node.addEntity, hmc, hf, hm]
      · simp [Node.updateEntity, Node.addEntity, hmc, hf, hm]
    · refine ⟨?_, ?_, ?_, hfits⟩
      · simp [Node.updateEntity, Node.addEntity, hmc, hf, hm]
      · simp [Node.updateEntity, Node.addEntity, hmc, hf, hm]
      · simp [Node.updateEntity, Node.addEntity, hmc, hf, hm]

/-- C1 witness: a one-type Node with member 5 and an entity that fits;
reconciliation keeps it a member, delivers nothing, and the fit test is
order-independent for two concrete components. -/
theorem membership_law_witness :
    (([5] : List Nat).Nodup) ∧
    ((5 ∈ ((⟨[0], [5], 1, [], [], [7], [7], []⟩ : Node).updateEntity 5
        ⟨[⟨⟨0, 1⟩, false⟩], 1⟩).members) ↔
      (⟨[0], [5], 1, [], [], [7], [7], []⟩ : Node).entityFits
        ⟨[⟨⟨0, 1⟩, false⟩], 1⟩ = true) ∧
    (((⟨[0], [5], 1, [], [], [7], [7], []⟩ : Node).updateEntity 5
        ⟨[⟨⟨0, 1⟩, false⟩], 1⟩).delivered = []) ∧
    (((⟨[0], [5], 1, [], [], [7], [7], []⟩ : Node).updateEntity 5
        ⟨[⟨⟨0, 1⟩, false⟩], 1⟩).signature = [0]) ∧
    ((⟨[0], [5], 1, [], [], [7], [7], []⟩ : Node).entityFits
        ((((⟨[], 0⟩ : Entity).add ⟨1, 1⟩).1.add ⟨2, 2⟩).1)
      = (⟨[0], [5], 1, [], [], [7], [7], []⟩ : Node).entityFits
        ((((⟨[], 0⟩ : Entity).add ⟨2, 2⟩).1.add ⟨1, 1⟩).1)) :=
  ⟨by decide,
   membership_law ⟨[0], [5], 1, [], [], [7], [7], []⟩ 5 ⟨[⟨⟨0, 1⟩, false⟩], 1⟩
     ⟨1, 1⟩ ⟨2, 2⟩ ⟨[], 0⟩ (by decide)⟩

/-- Canonicalization is order-independent: permuted type lists share one
Signature. -/
theorem canonSig_perm {l1 l2 : List Nat} (h : l1.Perm l2) :
    canonSig l1 = canonSig l2 := by
  unfold canonSig
  have hs1 : List.Sorted (· ≤ ·) (List.insertionSort (· ≤ ·) l1.dedup) :=
    List.sorted_insertionSort _ _
  have hs2 : List.Sorted (· ≤ ·) (List.insertionSort (· ≤ ·) l2.dedup) :=
    List.sorted_insertionSort _ _
  have hperm : (List.insertionSort (· ≤ ·) l1.dedup).Perm
      (List.insertionSort (· ≤ ·) l2.dedup) :=
    (List.perm_insertionSort _ _).trans ((h.dedup).trans
      (List.perm_insertionSort _ _).symm)
  exact List.eq_of_perm_of_sorted hperm hs1 hs2

/-- Seeding a Node from the active entity set never alters its
signature. -/
theorem seed_signature (es : List (Nat × Entity)) (n : Node) :
    (es.foldl (fun n p => n.addEntity p.1 p.2) n).signature = n.signature := by
  induction es generalizing n with
  | nil => rfl
  | cons p es ih =>
    rw [List.foldl_cons, ih]
    unfold Node.addEntity
    split <;> rfl

/-- C7: `getNodeType` canonicalizes its type list — permuted lists give
the identical Engine/Node result — and the Node cache keeps at most one
Node per distinct Signature. -/
theorem getNodeType_canonical (g : Engine) (l1 l2 : List Nat)
    (hp : l1.Perm l2) (hnd : (g.nodes.map Node.signature).Nodup) :
    g.getNodeType l1 = g.getNodeType l2 ∧
    (((g.getNodeType l1).1.nodes.map Node.signature).Nodup) := by
  have hc : canonSig l1 = canonSig l2 := canonSig_perm hp
  constructor
  · unfold Engine.getNodeType
    rw [hc]
  · unfold Engine.getNodeType
    split
    · exact hnd
    · rename_i hfind
      have hnotin : (canonSig l1) ∉ g.nodes.map Node.signature := by
        intro hmem
        obtain ⟨n, hn, hsig⟩ := List.mem_map.mp hmem
        have hfalse := List.find?_eq_none.mp hfind n hn
        apply hfalse
        simp [hsig]
      have hseed : (seedNode (canonSig l1) g.entities).signature = canonSig l1 :=
        seed_signature g.entities (Node.fresh (canonSig l1))
      show ((g.nodes ++ [seedNode (canonSig l1) g.entities]).map Node.signature).Nodup
      rw [List.map_append, List.nodup_append]
      refine ⟨hnd, by simp, ?_⟩
      intro x hx hx2
      rw [List.map_cons, List.map_nil, hseed] at hx2
      simp only [List.mem_singleton] at hx2
      subst hx2
      exact hnotin hx

/-- C7 witness: on a concrete engine, `getNodeType [0,1]` and
`getNodeType [1,0]` coincide and the cache signatures stay distinct. -/
theorem getNodeType_canonical_witness :
    (([0, 1] : List Nat).Perm [1, 0]) ∧
    ((engineC7.nodes.map Node.signature).Nodup) ∧
    (engineC7.getNodeType [0, 1] = engineC7.getNodeType [1, 0] ∧
     (((engineC7.getNodeType [0, 1]).1.nodes.map Node.signature).Nodup)) :=
  ⟨by decide, by decide, getNodeType_canonical engineC7 [0, 1] [1, 0]
    (by decide) (by decide)⟩

end Scent
